import Mathlib

/-!
Shallow embedding of the trading-bot repository (TypeScript) in Lean 4.

Conventions used throughout:
* JavaScript numbers are modelled by `JsNum`: a finite rational, `+Infinity`,
  `-Infinity` or `NaN`, with the IEEE-style propagation rules of the JS
  arithmetic operators (finite arithmetic is taken exact over `ℚ`).
* `Math.log` and `Math.sqrt` are parametrised by abstract functions
  `rlog rsqrt : ℚ → ℚ` giving their value on positive rationals; the exact
  special values (`log` of zero/negatives/infinities, `sqrt 0 = 0`, ...) are
  fixed by the JS specification and baked into `jsLog` / `jsSqrt`.
* Asynchronous network calls are oracles carried by an environment record;
  a thrown exception is an `Except.error`, `await` is monadic sequencing.
* External calls made by the swap orchestrator are additionally recorded in
  an event trace, so that call-ordering properties can be stated.
-/

/-- Model of a JavaScript `number`: finite value (exact rational), the two
infinities, or `NaN`. -/
inductive JsNum where
  | fin (q : ℚ)
  | posInf
  | negInf
  | nan
deriving DecidableEq, Repr

/-- JS `isNaN` on a number. -/
def JsNum.isNaN : JsNum → Bool
  | .nan => true
  | _ => false

/-- JS `Number.isFinite`. -/
def JsNum.isFinite : JsNum → Bool
  | .fin _ => true
  | _ => false

/-- JS addition. -/
def jsAdd : JsNum → JsNum → JsNum
  | .nan, _ => .nan
  | _, .nan => .nan
  | .posInf, .negInf => .nan
  | .negInf, .posInf => .nan
  | .posInf, _ => .posInf
  | _, .posInf => .posInf
  | .negInf, _ => .negInf
  | _, .negInf => .negInf
  | .fin a, .fin b => .fin (a + b)

/-- JS unary minus. -/
def jsNeg : JsNum → JsNum
  | .fin a => .fin (-a)
  | .posInf => .negInf
  | .negInf => .posInf
  | .nan => .nan

/-- JS subtraction (`a - b` behaves as `a + (-b)`). -/
def jsSub (a b : JsNum) : JsNum := jsAdd a (jsNeg b)

/-- JS multiplication (note `0 * Infinity = NaN`). -/
def jsMul : JsNum → JsNum → JsNum
  | .nan, _ => .nan
  | _, .nan => .nan
  | .fin a, .fin b => .fin (a * b)
  | .fin a, .posInf => if a = 0 then .nan else if 0 < a then .posInf else .negInf
  | .fin a, .negInf => if a = 0 then .nan else if 0 < a then .negInf else .posInf
  | .posInf, .fin b => if b = 0 then .nan else if 0 < b then .posInf else .negInf
  | .negInf, .fin b => if b = 0 then .nan else if 0 < b then .negInf else .posInf
  | .posInf, .posInf => .posInf
  | .posInf, .negInf => .negInf
  | .negInf, .posInf => .negInf
  | .negInf, .negInf => .posInf

/-- JS division (`x / 0` is a signed infinity for `x ≠ 0`, `0 / 0 = NaN`,
`Infinity / Infinity = NaN`; the negative-zero distinction is not modelled). -/
def jsDiv : JsNum → JsNum → JsNum
  | .nan, _ => .nan
  | _, .nan => .nan
  | .fin a, .fin b =>
      if b = 0 then (if a = 0 then .nan else if 0 < a then .posInf else .negInf)
      else .fin (a / b)
  | .fin _, .posInf => .fin 0
  | .fin _, .negInf => .fin 0
  | .posInf, .fin b => if 0 ≤ b then .posInf else .negInf
  | .negInf, .fin b => if 0 ≤ b then .negInf else .posInf
  | .posInf, _ => .nan
  | .negInf, _ => .nan

/-- JS `Math.max` (any `NaN` argument yields `NaN`). -/
def jsMax : JsNum → JsNum → JsNum
  | .nan, _ => .nan
  | _, .nan => .nan
  | .posInf, _ => .posInf
  | _, .posInf => .posInf
  | .negInf, b => b
  | a, .negInf => a
  | .fin a, .fin b => .fin (max a b)

/-- JS `Math.min` (any `NaN` argument yields `NaN`). -/
def jsMin : JsNum → JsNum → JsNum
  | .nan, _ => .nan
  | _, .nan => .nan
  | .negInf, _ => .negInf
  | _, .negInf => .negInf
  | .posInf, b => b
  | a, .posInf => a
  | .fin a, .fin b => .fin (min a b)

/-- JS `Math.log`; `rlog` gives the (irrational, hence abstract) value on
positive rationals, the special values are the ones fixed by the JS spec. -/
def jsLog (rlog : ℚ → ℚ) : JsNum → JsNum
  | .nan => .nan
  | .negInf => .nan
  | .posInf => .posInf
  | .fin q => if q < 0 then .nan else if q = 0 then .negInf else .fin (rlog q)

/-- JS `Math.sqrt`; `rsqrt` gives the value on positive rationals
(`Math.sqrt 0 = 0` exactly, negatives give `NaN`). -/
def jsSqrt (rsqrt : ℚ → ℚ) : JsNum → JsNum
  | .nan => .nan
  | .negInf => .nan
  | .posInf => .posInf
  | .fin q => if q < 0 then .nan else if q = 0 then .fin 0 else .fin (rsqrt q)

/-- `Number(x.toFixed(6))`: rounding to 6 fractional digits, ties toward the
larger candidate (the tie rule of `toFixed`); infinities and `NaN` round-trip
through their string forms unchanged. -/
def jsToFixed6 : JsNum → JsNum
  | .fin q => .fin ((⌊q * 1000000 + 1/2⌋ : ℚ) / 1000000)
  | x => x

/-- Trade direction of the sizer (src/services/calculateSwapAmount.ts). -/
inductive TradeDirection where
  | ETH_TO_USDT
  | USDT_TO_ETH
deriving DecidableEq, Repr

/-- src/services/calculateSwapAmount.ts, `calculateLogReturns`: for each
consecutive pair of prices compute `Math.log(prices[i] / prices[i-1])` and
push it unless `isNaN(r)`. -/
def calculateLogReturns (rlog : ℚ → ℚ) : List JsNum → List JsNum
  | p0 :: p1 :: rest =>
      let r := jsLog rlog (jsDiv p1 p0)
      if r.isNaN then calculateLogReturns rlog (p1 :: rest)
      else r :: calculateLogReturns rlog (p1 :: rest)
  | _ => []

/-- src/services/calculateSwapAmount.ts, `stdDev`: population standard
deviation via `reduce`; on an empty list both `mean` and `variance` are
`0 / 0 = NaN`. -/
def stdDev (rsqrt : ℚ → ℚ) (values : List JsNum) : JsNum :=
  let n : JsNum := .fin (values.length : ℚ)
  let mean := jsDiv (values.foldl jsAdd (.fin 0)) n
  let variance :=
    jsDiv (values.foldl (fun sum val => jsAdd sum (jsMul (jsSub val mean) (jsSub val mean))) (.fin 0)) n
  jsSqrt rsqrt variance

/-- src/services/calculateSwapAmount.ts, body of `calculateSwapAmount` after
the two price fetches: floor the volatility at 0.001, damp the risk
percentage by `min(1, 0.02 / volatility)`, take the slice of the relevant
balance, and return `Number(amount.toFixed(6))`. -/
def calculateSwapAmountCore (ethBalance usdtBalance riskPct : JsNum)
    (tradeDirection : TradeDirection) (rawVolatility : JsNum) : JsNum :=
  let volatility := jsMax rawVolatility (.fin (1/1000))
  let targetVol : JsNum := .fin (1/50)
  let volAdjustment := jsMin (.fin 1) (jsDiv targetVol volatility)
  let adjustedPct := jsMul riskPct volAdjustment
  let amount :=
    match tradeDirection with
    | .USDT_TO_ETH => jsMul usdtBalance adjustedPct
    | .ETH_TO_USDT => jsMul ethBalance adjustedPct
  jsToFixed6 amount

/-- src/services/calculateSwapAmount.ts, `fetchEthPrice`: throws when the
1-day price series is empty, otherwise yields its last entry. -/
def fetchEthPrice (currentPrices : List JsNum) : Except String JsNum :=
  match currentPrices.getLast? with
  | none => .error "No price data returned from Coingecko."
  | some p => .ok p

/-- src/services/calculateSwapAmount.ts, `calculateSwapAmount`: fetch the
current price (fatal if that series is empty) and the 365-day daily series,
derive the volatility from the log returns, and size the trade. The fetched
current price is only logged, never used in the computation, exactly as in
the source. -/
def calculateSwapAmount (rlog rsqrt : ℚ → ℚ) (currentPrices dailyPrices : List JsNum)
    (ethBalance usdtBalance riskPct : JsNum) (tradeDirection : TradeDirection) :
    Except String JsNum :=
  match fetchEthPrice currentPrices with
  | .error e => .error e
  | .ok _ethPrice =>
      let logReturns := calculateLogReturns rlog dailyPrices
      let rawVolatility := stdDev rsqrt logReturns
      .ok (calculateSwapAmountCore ethBalance usdtBalance riskPct tradeDirection rawVolatility)

/-! ## Swap orchestrator (src/services/performTokenSwap.ts) -/

/-- Transaction payload returned by the 1inch API / sent to the node
(`toAddress` renders the source's `to` field, a reserved word here). -/
structure TxObject where
  toAddress : String
  data : String
  value : ℕ
  gas : ℕ
  gasPrice : Option ℕ
deriving DecidableEq, Repr

/-- One external call of the swap workflow.  Events are recorded in program
order, so temporal claims about the orchestrator become statements about the
trace list. -/
inductive SwapEvent where
  | allowanceCheck (tokenAddress walletAddress : String)
  | approvalBuild (tokenAddress : String) (amount : Option ℕ)
  | approvalBroadcast (hash : String)
  | approvalConfirmed (hash : String)
  | swapBuild (src dst : String) (amount : ℕ) (sender : String)
  | swapBroadcast (hash : String)
  | swapConfirmed (hash : String)
deriving DecidableEq, Repr

def SwapEvent.isAllowanceCheck : SwapEvent → Bool
  | .allowanceCheck _ _ => true
  | _ => false

def SwapEvent.isApprovalBuild : SwapEvent → Bool
  | .approvalBuild _ _ => true
  | _ => false

def SwapEvent.isApprovalBroadcast : SwapEvent → Bool
  | .approvalBroadcast _ => true
  | _ => false

def SwapEvent.isApprovalConfirmed : SwapEvent → Bool
  | .approvalConfirmed _ => true
  | _ => false

def SwapEvent.isSwapBuild : SwapEvent → Bool
  | .swapBuild _ _ _ _ => true
  | _ => false

/-- Any approval-related event (API build call, broadcast, confirmation). -/
def SwapEvent.isApprovalStep (e : SwapEvent) : Bool :=
  e.isApprovalBuild || e.isApprovalBroadcast || e.isApprovalConfirmed

/-- The events issued strictly before the swap-build request. -/
def preSwapBuild (tr : List SwapEvent) : List SwapEvent :=
  tr.takeWhile (fun e => !e.isSwapBuild)

/-- Oracle results of the external collaborators used by one
`performTokenSwap` invocation (1inch API, node RPC, signer).  `Except.error`
models the corresponding `await` throwing. -/
structure SwapEnv where
  allowanceResult : Except String ℕ
  approvalApiResult : Except String TxObject
  approvalGasResult : Except String ℕ
  approvalSendResult : Except String String
  approvalWaitResult : Except String Unit
  swapApiResult : Except String TxObject
  swapSendResult : Except String String
  swapWaitResult : Except String Unit

/-- src/services/performTokenSwap.ts, `checkAllowance`: GET
`/approve/allowance` for the token/wallet pair; always issued, the result is
whatever the aggregation API answers. -/
def checkAllowance (env : SwapEnv) (tokenAddress walletAddress : String) :
    List SwapEvent × Except String ℕ :=
  ([.allowanceCheck tokenAddress walletAddress], env.allowanceResult)

/-- src/services/performTokenSwap.ts, `buildApprovalTx`: GET
`/approve/transaction` (with the trade amount when given) then
`provider.estimateGas`; either failure propagates. -/
def buildApprovalTx (env : SwapEnv) (_walletAddress tokenAddress : String)
    (amount : Option ℕ) : List SwapEvent × Except String TxObject :=
  ([.approvalBuild tokenAddress amount],
    match env.approvalApiResult with
    | .error e => .error e
    | .ok d =>
        match env.approvalGasResult with
        | .error e => .error e
        | .ok g => .ok { d with gas := g })

/-- src/services/performTokenSwap.ts, `buildSwapTx`: GET `/swap` with the
swap parameters. -/
def buildSwapTx (env : SwapEnv) (src dst : String) (amount : ℕ) (sender : String) :
    List SwapEvent × Except String TxObject :=
  ([.swapBuild src dst amount sender], env.swapApiResult)

/-- src/services/performTokenSwap.ts, `signAndSendTransaction`:
`wallet.sendTransaction` (broadcast; on success the transaction is on the
wire and we record it) followed by `txResponse.wait()` (one confirmation). -/
def signAndSendTransaction (sendResult : Except String String)
    (waitResult : Except String Unit)
    (broadcastEv confirmEv : String → SwapEvent) :
    List SwapEvent × Except String String :=
  match sendResult with
  | .error e => ([], .error e)
  | .ok hash =>
      match waitResult with
      | .error e => ([broadcastEv hash], .error e)
      | .ok _ => ([broadcastEv hash, confirmEv hash], .ok hash)

/-- src/services/performTokenSwap.ts, `performTokenSwap`: check the 1inch
allowance for `fromToken`; if `BigInt(allowance) < BigInt(amountWei)` build,
sign, broadcast and await one approval transaction (aborting on failure);
then build, sign, broadcast and await the swap transaction.  Returns the
swap hash together with the trace of external calls. -/
def performTokenSwap (env : SwapEnv) (fromToken toToken : String)
    (amountWei : ℕ) (walletAddress : String) :
    List SwapEvent × Except String String :=
  let (ev1, allowanceRes) := checkAllowance env fromToken walletAddress
  match allowanceRes with
  | .error e => (ev1, .error e)
  | .ok allowance =>
      let proceed : List SwapEvent → List SwapEvent × Except String String := fun evs =>
        let (ev4, swapTxRes) := buildSwapTx env fromToken toToken amountWei walletAddress
        match swapTxRes with
        | .error e => (evs ++ ev4, .error e)
        | .ok _swapTx =>
            let (ev5, swapHashRes) :=
              signAndSendTransaction env.swapSendResult env.swapWaitResult
                .swapBroadcast .swapConfirmed
            (evs ++ ev4 ++ ev5, swapHashRes)
      if allowance < amountWei then
        let (ev2, approvalTxRes) := buildApprovalTx env walletAddress fromToken (some amountWei)
        match approvalTxRes with
        | .error e => (ev1 ++ ev2, .error e)
        | .ok _approvalTx =>
            let (ev3, approvalHashRes) :=
              signAndSendTransaction env.approvalSendResult env.approvalWaitResult
                .approvalBroadcast .approvalConfirmed
            match approvalHashRes with
            | .error e => (ev1 ++ ev2 ++ ev3, .error e)
            | .ok _approvalHash => proceed (ev1 ++ ev2 ++ ev3)
      else
        proceed ev1

/-- The reserved sentinel address of the native asset
(src/utils/toWei.ts). -/
def nativeTokenAddress : String := "0xeeeeeeeeeeeeeeeeeeeeeeeeeeeeeeeeeeeeeeee"

/-! ## Balance reader (src/services/getBalances.ts and the legacy
src/services/getBalance.ts) -/

/-- Oracle results of the node RPC calls made by a balance read, plus the
ethers.js formatters (external library collaborators): `tokenResult addr` is
the `Promise.all` of `balanceOf`/`decimals` for the contract at `addr`. -/
structure BalanceEnv where
  nativeResult : Except String ℕ
  tokenResult : String → Except String (ℕ × ℕ)
  formatEther : ℕ → String
  formatUnits : ℕ → ℕ → String

/-- The snapshot object returned by a balance read. -/
structure BalanceSnapshot where
  wallet : String
  chainId : ℕ
  balances : List (String × String)
deriving DecidableEq, Repr

/-- JS object assignment `balances[k] = v`: overwrite in place when the key
exists, append otherwise (insertion order preserved). -/
def recordSet (m : List (String × String)) (k v : String) : List (String × String) :=
  if m.any (fun p => p.1 = k) then m.map (fun p => if p.1 = k then (k, v) else p)
  else m ++ [(k, v)]

/-- The native symbol both readers use. -/
def nativeSymbol : String := "ETH"

/-- The value recorded for one token entry: the formatted balance, or the
`"Error"` marker when the per-asset read threw (the loop body's catch). -/
def tokenEntryValue (env : BalanceEnv) (address : String) : String :=
  match env.tokenResult address with
  | .ok rd => env.formatUnits rd.1 rd.2
  | .error _ => "Error"

/-- The `for (const [symbol, address] of Object.entries(TOKEN_ADDRESS_MAP))`
loop shared verbatim by both balance readers: skip the native symbol, record
each token's formatted balance or its `"Error"` marker. -/
def tokenBalanceLoop (env : BalanceEnv) (registry : List (String × String))
    (init : List (String × String)) : List (String × String) :=
  registry.foldl
    (fun m p => if p.1 = nativeSymbol then m else recordSet m p.1 (tokenEntryValue env p.2))
    init

/-- The value recorded for the native entry by the guarded reader: the
formatted balance, or the `"Error"` marker when `provider.getBalance` threw
(the native read's own try/catch). -/
def nativeEntryValue (env : BalanceEnv) : String :=
  match env.nativeResult with
  | .ok b => env.formatEther b
  | .error _ => "Error"

/-- src/services/getBalances.ts, `getBalances`: the native read is inside its
own try/catch, so its failure is recorded as the `"Error"` marker and the
read always completes. -/
def getBalances (env : BalanceEnv) (registry : List (String × String))
    (walletAddress : String) (chainId : ℕ) : Except String BalanceSnapshot :=
  .ok { wallet := walletAddress, chainId := chainId,
        balances := tokenBalanceLoop env registry
          (recordSet [] nativeSymbol (nativeEntryValue env)) }

/-- src/services/getBalance.ts, the legacy `getBalances`: the native read is
not guarded, so its failure propagates and aborts the whole read. -/
def getBalance (env : BalanceEnv) (registry : List (String × String))
    (walletAddress : String) (chainId : ℕ) : Except String BalanceSnapshot :=
  match env.nativeResult with
  | .error e => .error e
  | .ok b =>
      let init := recordSet [] nativeSymbol (env.formatEther b)
      .ok { wallet := walletAddress, chainId := chainId,
            balances := tokenBalanceLoop env registry init }

/-- `Except` success flag. -/
def exceptOk : Except String BalanceSnapshot → Bool
  | .ok _ => true
  | .error _ => false

/-- Success flag of a native-balance oracle answer. -/
def nativeOk : Except String ℕ → Bool
  | .ok _ => true
  | .error _ => false

/-! ## Telegram notification sink (src/notifications/telegram.ts) -/

/-- JS truthiness of an environment variable (`undefined` and the empty
string are falsy). -/
def jsFalsyStr : Option String → Bool
  | none => true
  | some s => s.isEmpty

/-- The POST body sent to the Bot API. -/
structure TelegramRequest where
  url : String
  chatId : String
  text : String
  parseMode : String
  replyMarkup : Option String

/-- The JSON answer of the Bot API (`ok` plus `description`). -/
structure TelegramResponse where
  ok : Bool
  description : String
deriving DecidableEq, Repr

/-- Which internal branch the notification ended in; every branch returns
normally. -/
inductive NotifyOutcome where
  | configMissing
  | sent
  | rejected (description : String)
  | failed (message : String)
deriving DecidableEq, Repr

/-- Configuration and network oracle of one notification attempt. -/
structure TelegramEnv where
  botToken : Option String
  chatId : Option String
  post : TelegramRequest → Except String TelegramResponse

/-- src/notifications/telegram.ts, `sendTelegramNotification`: missing
configuration returns early; the `axios.post` sits in a try/catch, and an
API-level rejection (`!response.data.ok`) is only logged — every delivery
outcome returns normally. -/
def sendTelegramNotification (env : TelegramEnv) (message : String)
    (markup : Option String) : Except String NotifyOutcome :=
  if jsFalsyStr env.botToken || jsFalsyStr env.chatId then .ok .configMissing
  else
    let url := "https://api.telegram.org/bot" ++ env.botToken.getD "" ++ "/sendMessage"
    let req : TelegramRequest :=
      { url := url, chatId := env.chatId.getD "", text := message,
        parseMode := "Markdown", replyMarkup := markup }
    match env.post req with
    | .ok response => if response.ok then .ok .sent else .ok (.rejected response.description)
    | .error e => .ok (.failed e)

/-! ## Helper lemmas about the JS number model -/

theorem jsMul_nan_right (a : JsNum) : jsMul a .nan = .nan := by
  cases a <;> rfl

theorem jsAdd_nan_right (a : JsNum) : jsAdd a .nan = .nan := by
  cases a <;> rfl

/-- `NaN` volatility propagates through the whole sizing formula. -/
theorem calculateSwapAmountCore_nan (ethBalance usdtBalance riskPct : JsNum)
    (dir : TradeDirection) :
    calculateSwapAmountCore ethBalance usdtBalance riskPct dir .nan = .nan := by
  have h1 : jsMin (.fin 1) (jsDiv (.fin (1/50)) (jsMax .nan (.fin (1/1000)))) = JsNum.nan := rfl
  cases dir
  · show jsToFixed6 (jsMul ethBalance (jsMul riskPct
      (jsMin (.fin 1) (jsDiv (.fin (1/50)) (jsMax .nan (.fin (1/1000))))))) = .nan
    rw [h1, jsMul_nan_right, jsMul_nan_right]
    rfl
  · show jsToFixed6 (jsMul usdtBalance (jsMul riskPct
      (jsMin (.fin 1) (jsDiv (.fin (1/50)) (jsMax .nan (.fin (1/1000))))))) = .nan
    rw [h1, jsMul_nan_right, jsMul_nan_right]
    rfl

/-- Finite-volatility normal form of the sizing formula. -/
theorem calculateSwapAmountCore_fin (ethBalance usdtBalance riskPct v : ℚ)
    (dir : TradeDirection) :
    calculateSwapAmountCore (.fin ethBalance) (.fin usdtBalance) (.fin riskPct) dir (.fin v)
      = jsToFixed6 (.fin ((match dir with
          | TradeDirection.USDT_TO_ETH => usdtBalance
          | TradeDirection.ETH_TO_USDT => ethBalance)
            * (riskPct * min 1 ((1/50) / max v (1/1000))))) := by
  have hmaxpos : (0:ℚ) < max v (1/1000) := lt_of_lt_of_le (by norm_num) (le_max_right _ _)
  have hd : jsDiv (JsNum.fin (1/50)) (JsNum.fin (max v (1/1000)))
      = JsNum.fin ((1/50) / max v (1/1000)) := by
    show (if max v (1/1000) = 0 then _ else JsNum.fin ((1/50) / max v (1/1000))) = _
    rw [if_neg (ne_of_gt hmaxpos)]
  have hmax : jsMax (JsNum.fin v) (JsNum.fin (1/1000)) = JsNum.fin (max v (1/1000)) := rfl
  cases dir
  · show jsToFixed6 (jsMul (JsNum.fin ethBalance) (jsMul (JsNum.fin riskPct)
      (jsMin (JsNum.fin 1) (jsDiv (JsNum.fin (1/50)) (jsMax (JsNum.fin v) (JsNum.fin (1/1000))))))) = _
    rw [hmax, hd]
    rfl
  · show jsToFixed6 (jsMul (JsNum.fin usdtBalance) (jsMul (JsNum.fin riskPct)
      (jsMin (JsNum.fin 1) (jsDiv (JsNum.fin (1/50)) (jsMax (JsNum.fin v) (JsNum.fin (1/1000))))))) = _
    rw [hmax, hd]
    rfl

/-- `+Infinity` volatility: the adjustment collapses to `min 1 0`. -/
theorem calculateSwapAmountCore_posInf (ethBalance usdtBalance riskPct : ℚ)
    (dir : TradeDirection) :
    calculateSwapAmountCore (.fin ethBalance) (.fin usdtBalance) (.fin riskPct) dir .posInf
      = jsToFixed6 (.fin ((match dir with
          | TradeDirection.USDT_TO_ETH => usdtBalance
          | TradeDirection.ETH_TO_USDT => ethBalance) * (riskPct * min 1 0))) := by
  cases dir <;> rfl

/-- `-Infinity` volatility: the 0.001 floor takes over. -/
theorem calculateSwapAmountCore_negInf (ethBalance usdtBalance riskPct : ℚ)
    (dir : TradeDirection) :
    calculateSwapAmountCore (.fin ethBalance) (.fin usdtBalance) (.fin riskPct) dir .negInf
      = jsToFixed6 (.fin ((match dir with
          | TradeDirection.USDT_TO_ETH => usdtBalance
          | TradeDirection.ETH_TO_USDT => ethBalance)
            * (riskPct * min 1 ((1/50) / (1/1000))))) := by
  have hd : jsDiv (JsNum.fin (1/50)) (JsNum.fin (1/1000)) = JsNum.fin ((1/50) / (1/1000)) := by
    show (if (1/1000 : ℚ) = 0 then _ else JsNum.fin ((1/50) / (1/1000))) = _
    rw [if_neg (by norm_num : (1/1000 : ℚ) ≠ 0)]
  cases dir
  · show jsToFixed6 (jsMul (JsNum.fin ethBalance) (jsMul (JsNum.fin riskPct)
      (jsMin (JsNum.fin 1) (jsDiv (JsNum.fin (1/50)) (JsNum.fin (1/1000)))))) = _
    rw [hd]
    rfl
  · show jsToFixed6 (jsMul (JsNum.fin usdtBalance) (jsMul (JsNum.fin riskPct)
      (jsMin (JsNum.fin 1) (jsDiv (JsNum.fin (1/50)) (JsNum.fin (1/1000)))))) = _
    rw [hd]
    rfl

/-- Rounding to 6 digits of a shrunken slice stays within the risk budget up
to half an ulp of the last digit. -/
theorem round6_mul_bound (bal rp m : ℚ) (hbal : 0 ≤ bal) (hrp : 0 ≤ rp) (hm : m ≤ 1) :
    ∃ a : ℚ, jsToFixed6 (.fin (bal * (rp * m))) = .fin a ∧ a ≤ rp * bal + 1/2000000 := by
  refine ⟨_, rfl, ?_⟩
  have h1 : bal * (rp * m) ≤ rp * bal := by
    have h2 : rp * m ≤ rp := mul_le_of_le_one_right hrp hm
    calc bal * (rp * m) ≤ bal * rp := mul_le_mul_of_nonneg_left h2 hbal
      _ = rp * bal := mul_comm _ _
  have h3 : ((⌊bal * (rp * m) * 1000000 + 1/2⌋ : ℚ)) ≤ bal * (rp * m) * 1000000 + 1/2 :=
    Int.floor_le _
  rw [div_le_iff₀ (by norm_num : (0:ℚ) < 1000000)]
  have h4 : bal * (rp * m) * 1000000 ≤ rp * bal * 1000000 :=
    mul_le_mul_of_nonneg_right h1 (by norm_num)
  linarith

/-- The singleton case of `stdDev`: one observation has zero deviation
(exactly, by `Math.sqrt 0 = 0`). -/
theorem stdDev_singleton (rsqrt : ℚ → ℚ) (x : ℚ) :
    stdDev rsqrt [.fin x] = .fin 0 := by
  simp only [stdDev, List.foldl, List.length_cons, List.length_nil, Nat.cast_one]
  norm_num [jsAdd, jsDiv, jsSub, jsNeg, jsMul, jsSqrt]

/-! ## C8 — log returns: every consecutive pair, but only `NaN` is dropped -/

/-- C8 (counterexample): on the series `[1, 0]` the log return is
`Math.log(0/1) = -Infinity`, `isNaN` is false for it, so the code keeps a
non-finite value — the claim that the returned list contains only finite log
returns is false. -/
theorem calculateLogReturns_keeps_infinite_returns :
    calculateLogReturns (fun _ => 0) [JsNum.fin 1, JsNum.fin 0] = [JsNum.negInf] ∧
    JsNum.negInf.isFinite = false := by
  have hdiv : jsDiv (JsNum.fin 0) (JsNum.fin 1) = JsNum.fin 0 := by
    show (if (1:ℚ) = 0
        then (if (0:ℚ) = 0 then JsNum.nan else if 0 < (0:ℚ) then JsNum.posInf else JsNum.negInf)
        else JsNum.fin ((0:ℚ)/1)) = JsNum.fin 0
    rw [if_neg one_ne_zero]
    norm_num
  have hlog : jsLog (fun _ => (0:ℚ)) (JsNum.fin 0) = JsNum.negInf := by
    show (if (0:ℚ) < 0 then JsNum.nan
        else if (0:ℚ) = 0 then JsNum.negInf else JsNum.fin 0) = JsNum.negInf
    rw [if_neg (lt_irrefl 0), if_pos rfl]
  refine ⟨?_, rfl⟩
  simp [calculateLogReturns, hdiv, hlog, JsNum.isNaN]

/-- C8 (amended): `calculateLogReturns` computes `log(pᵢ / pᵢ₋₁)` over every
consecutive pair of the series and discards exactly the `NaN` values — the
result never contains `NaN`, but infinite log returns (from a zero price
point) are retained. -/
theorem calculateLogReturns_pairs_filter_nan :
    ∀ (rlog : ℚ → ℚ) (prices : List JsNum),
      calculateLogReturns rlog prices =
        ((prices.zip prices.tail).map (fun p => jsLog rlog (jsDiv p.2 p.1))).filter
          (fun r => !r.isNaN) ∧
      (calculateLogReturns rlog prices).all (fun r => !r.isNaN) = true := by
  intro rlog prices
  constructor
  · induction prices with
    | nil => rfl
    | cons p0 rest ih =>
      cases rest with
      | nil => rfl
      | cons p1 rest2 =>
        simp only [calculateLogReturns]
        rw [ih]
        simp only [List.tail_cons, List.zip_cons_cons, List.map_cons, List.filter_cons]
        by_cases h : (jsLog rlog (jsDiv p1 p0)).isNaN = true
        · simp [h]
        · simp [h]
  · induction prices with
    | nil => rfl
    | cons p0 rest ih =>
      cases rest with
      | nil => rfl
      | cons p1 rest2 =>
        simp only [calculateLogReturns]
        by_cases h : (jsLog rlog (jsDiv p1 p0)).isNaN = true
        · simpa [h] using ih
        · simp only [h] at ih ⊢
          simp [h, ih]

/-! ## C5 — a daily series with fewer than two points does not raise an
error: the NaN standard deviation propagates to the result -/

/-- C5 (counterexample): with a one-point daily series (and a non-empty
current-price series) `calculateSwapAmount` does not fail with a
price-data error — it returns `Except.ok NaN`. -/
theorem calculateSwapAmount_single_point_no_error :
    calculateSwapAmount (fun q => q) (fun q => q) [JsNum.fin 100] [JsNum.fin 100]
        (JsNum.fin 2) (JsNum.fin 2000) (JsNum.fin (1/50)) TradeDirection.USDT_TO_ETH
      = Except.ok JsNum.nan := by
  rfl

/-- C5 (amended): for every daily price series with fewer than 2 points the
log-return list is empty, its standard deviation is `0/0 = NaN`, and
`calculateSwapAmount` returns `ok NaN` instead of raising any error; the
only price-data error is raised by the current-price fetch on an empty
1-day series. -/
theorem calculateSwapAmount_short_daily_series_nan :
    ∀ (rlog rsqrt : ℚ → ℚ) (currentPrices dailyPrices : List JsNum)
      (ethBalance usdtBalance riskPct : JsNum) (dir : TradeDirection),
      currentPrices ≠ [] → dailyPrices.length ≤ 1 →
      calculateSwapAmount rlog rsqrt currentPrices dailyPrices
          ethBalance usdtBalance riskPct dir = .ok .nan := by
  intro rlog rsqrt cur daily eb ub rp dir hcur hlen
  have hlr : calculateLogReturns rlog daily = [] := by
    match daily with
    | [] => rfl
    | [_] => rfl
    | _ :: _ :: _ => simp at hlen
  have hsome : cur.getLast?.isSome := by
    rw [List.getLast?_isSome]
    exact hcur
  obtain ⟨p, hp⟩ := Option.isSome_iff_exists.mp hsome
  have hstd : stdDev rsqrt [] = JsNum.nan := rfl
  unfold calculateSwapAmount fetchEthPrice
  rw [hp]
  dsimp only
  rw [hlr, hstd, calculateSwapAmountCore_nan]

/-- C5 (witness for the amended theorem). -/
theorem calculateSwapAmount_short_daily_series_nan_witness :
    ([JsNum.fin 50, JsNum.fin 60] ≠ ([] : List JsNum)) ∧
    ([] : List JsNum).length ≤ 1 ∧
    calculateSwapAmount (fun q => q) (fun q => q) [JsNum.fin 50, JsNum.fin 60] []
        (JsNum.fin 1) (JsNum.fin 1) (JsNum.fin (1/50)) TradeDirection.ETH_TO_USDT
      = .ok .nan :=
  ⟨by decide, by decide,
    calculateSwapAmount_short_daily_series_nan (fun q => q) (fun q => q) _ _ _ _ _ _
      (by decide) (by decide)⟩

/-! ## C2 — the risk budget bound, and how the final rounding can break it -/

/-- C2 (counterexample): direction USDT→ETH, `usdtBalance = 9e-7`,
`riskPct = 1`, observed volatility `0`: the pre-rounding amount is the full
budget `9e-7`, but `toFixed(6)` rounds it up to `1e-6`, which exceeds
`riskPct × usdtBalance`. -/
theorem calculateSwapAmountCore_rounding_exceeds_budget :
    calculateSwapAmountCore (.fin 5) (.fin (9/10000000)) (.fin 1)
        TradeDirection.USDT_TO_ETH (.fin 0) = .fin (1/1000000) ∧
    ¬ ((1 : ℚ)/1000000 ≤ 1 * (9/10000000)) := by
  constructor
  · rw [calculateSwapAmountCore_fin]
    have h1 : max (0:ℚ) (1/1000) = 1/1000 := max_eq_right (by norm_num)
    have h2 : min (1:ℚ) ((1/50)/(1/1000)) = 1 := min_eq_left (by norm_num)
    rw [h1, h2]
    show JsNum.fin ((⌊(9/10000000 : ℚ) * (1 * 1) * 1000000 + 1/2⌋ : ℚ) / 1000000)
        = JsNum.fin (1/1000000)
    have h3 : (9/10000000 : ℚ) * (1 * 1) * 1000000 + 1/2 = 7/5 := by norm_num
    rw [h3]
    have h4 : ⌊(7/5 : ℚ)⌋ = 1 := by
      rw [Int.floor_eq_iff]
      norm_num
    rw [h4]
    norm_num
  · norm_num

/-- C2 (amended): for riskPct ∈ (0,1] and nonnegative balances, for every
observed volatility (any JS number) the sized amount is either `NaN`
(propagated volatility `NaN`) or a finite value that exceeds
`riskPct × relevant balance` by at most `5e-7` — half an ulp of the final
6-digit rounding; before that rounding the adjustment only shrinks the
budget. -/
theorem calculateSwapAmount_risk_budget_bound :
    ∀ (ethBalance usdtBalance riskPct : ℚ) (dir : TradeDirection) (rawVolatility : JsNum),
      0 < riskPct → riskPct ≤ 1 → 0 ≤ ethBalance → 0 ≤ usdtBalance →
      calculateSwapAmountCore (.fin ethBalance) (.fin usdtBalance) (.fin riskPct) dir
          rawVolatility = .nan ∨
      ∃ a : ℚ,
        calculateSwapAmountCore (.fin ethBalance) (.fin usdtBalance) (.fin riskPct) dir
            rawVolatility = .fin a ∧
        a ≤ riskPct * (match dir with
          | TradeDirection.USDT_TO_ETH => usdtBalance
          | TradeDirection.ETH_TO_USDT => ethBalance) + 1/2000000 := by
  intro eb ub rp dir rawVolatility hrp hrp1 heb hub
  cases rawVolatility with
  | nan => exact Or.inl (calculateSwapAmountCore_nan _ _ _ _)
  | fin v =>
      right
      rw [calculateSwapAmountCore_fin]
      cases dir
      · exact round6_mul_bound eb rp _ heb hrp.le (min_le_left _ _)
      · exact round6_mul_bound ub rp _ hub hrp.le (min_le_left _ _)
  | posInf =>
      right
      rw [calculateSwapAmountCore_posInf]
      cases dir
      · exact round6_mul_bound eb rp _ heb hrp.le (min_le_left _ _)
      · exact round6_mul_bound ub rp _ hub hrp.le (min_le_left _ _)
  | negInf =>
      right
      rw [calculateSwapAmountCore_negInf]
      cases dir
      · exact round6_mul_bound eb rp _ heb hrp.le (min_le_left _ _)
      · exact round6_mul_bound ub rp _ hub hrp.le (min_le_left _ _)

/-- C2 (witness for the amended theorem): the spec's own scenario, balance
2000 USDT, riskPct 2%, observed volatility equal to the 2% baseline. -/
theorem calculateSwapAmount_risk_budget_bound_witness :
    calculateSwapAmountCore (.fin 2) (.fin 2000) (.fin (1/50))
        TradeDirection.USDT_TO_ETH (.fin (1/50)) = .nan ∨
    ∃ a : ℚ,
      calculateSwapAmountCore (.fin 2) (.fin 2000) (.fin (1/50))
          TradeDirection.USDT_TO_ETH (.fin (1/50)) = .fin a ∧
      a ≤ (1/50 : ℚ) * 2000 + 1/2000000 :=
  calculateSwapAmount_risk_budget_bound 2 2000 (1/50) TradeDirection.USDT_TO_ETH
    (.fin (1/50)) (by norm_num) (by norm_num) (by norm_num) (by norm_num)

/-! ## C6 — the sized amount is non-increasing in the observed volatility -/

/-- C6: holding riskPct, the balances and the direction fixed, the amount
computed by the sizing formula at a higher observed volatility is never
larger than the amount at a lower one (the floor, the `min`, the products
and the final rounding are all monotone the right way). -/
theorem calculateSwapAmount_vol_monotone :
    ∀ (ethBalance usdtBalance riskPct v₁ v₂ : ℚ) (dir : TradeDirection),
      0 ≤ riskPct → 0 ≤ ethBalance → 0 ≤ usdtBalance → v₁ ≤ v₂ →
      ∃ a₁ a₂ : ℚ,
        calculateSwapAmountCore (.fin ethBalance) (.fin usdtBalance) (.fin riskPct) dir
            (.fin v₁) = .fin a₁ ∧
        calculateSwapAmountCore (.fin ethBalance) (.fin usdtBalance) (.fin riskPct) dir
            (.fin v₂) = .fin a₂ ∧
        a₂ ≤ a₁ := by
  intro eb ub rp v₁ v₂ dir hrp heb hub hv
  have hm1pos : (0:ℚ) < max v₁ (1/1000) := lt_of_lt_of_le (by norm_num) (le_max_right _ _)
  have hmax : max v₁ (1/1000) ≤ max v₂ (1/1000) := max_le_max hv (le_refl _)
  have hdivle : (1/50 : ℚ) / max v₂ (1/1000) ≤ (1/50) / max v₁ (1/1000) :=
    div_le_div_of_nonneg_left (by norm_num) hm1pos hmax
  have hminle : min (1:ℚ) ((1/50) / max v₂ (1/1000)) ≤ min 1 ((1/50) / max v₁ (1/1000)) :=
    min_le_min (le_refl 1) hdivle
  have key : ∀ bal : ℚ, 0 ≤ bal →
      ((⌊bal * (rp * min 1 ((1/50) / max v₂ (1/1000))) * 1000000 + 1/2⌋ : ℚ) / 1000000)
        ≤ ((⌊bal * (rp * min 1 ((1/50) / max v₁ (1/1000))) * 1000000 + 1/2⌋ : ℚ) / 1000000) := by
    intro bal hbal
    have hx : bal * (rp * min 1 ((1/50) / max v₂ (1/1000)))
        ≤ bal * (rp * min 1 ((1/50) / max v₁ (1/1000))) :=
      mul_le_mul_of_nonneg_left (mul_le_mul_of_nonneg_left hminle hrp) hbal
    have hfloor :
        ⌊bal * (rp * min 1 ((1/50) / max v₂ (1/1000))) * 1000000 + 1/2⌋
          ≤ ⌊bal * (rp * min 1 ((1/50) / max v₁ (1/1000))) * 1000000 + 1/2⌋ := by
      apply Int.floor_le_floor
      have := mul_le_mul_of_nonneg_right hx (by norm_num : (0:ℚ) ≤ 1000000)
      linarith
    have hcast : ((⌊bal * (rp * min 1 ((1/50) / max v₂ (1/1000))) * 1000000 + 1/2⌋ : ℤ) : ℚ)
        ≤ ((⌊bal * (rp * min 1 ((1/50) / max v₁ (1/1000))) * 1000000 + 1/2⌋ : ℤ) : ℚ) :=
      Int.cast_le.mpr hfloor
    linarith
  cases dir
  · exact ⟨_, _, (calculateSwapAmountCore_fin eb ub rp v₁ _).trans rfl,
      (calculateSwapAmountCore_fin eb ub rp v₂ _).trans rfl, key eb heb⟩
  · exact ⟨_, _, (calculateSwapAmountCore_fin eb ub rp v₁ _).trans rfl,
      (calculateSwapAmountCore_fin eb ub rp v₂ _).trans rfl, key ub hub⟩

/-- C6 (witness): the spec's two scenarios — volatility 2% gives 40 USDT,
volatility 8% gives 10 USDT, and 10 ≤ 40. -/
theorem calculateSwapAmount_vol_monotone_witness :
    ∃ a₁ a₂ : ℚ,
      calculateSwapAmountCore (.fin 2) (.fin 2000) (.fin (1/50))
          TradeDirection.USDT_TO_ETH (.fin (1/50)) = .fin a₁ ∧
      calculateSwapAmountCore (.fin 2) (.fin 2000) (.fin (1/50))
          TradeDirection.USDT_TO_ETH (.fin (2/25)) = .fin a₂ ∧
      a₂ ≤ a₁ :=
  calculateSwapAmount_vol_monotone 2 2000 (1/50) (1/50) (2/25) TradeDirection.USDT_TO_ETH
    (by norm_num) (by norm_num) (by norm_num) (by norm_num)

/-! ## C10 — a two-point series of positive prices gives the full risk
budget -/

/-- C10: a two-point daily series of positive prices yields exactly one
finite log return, the standard deviation of a singleton is exactly 0, the
0.001 floor applies, `volAdjustment = min(1, 0.02/0.001) = 1`, and the
function returns riskPct × the relevant balance rounded to 6 digits. -/
theorem calculateSwapAmount_two_point_series :
    ∀ (rlog rsqrt : ℚ → ℚ) (c p₀ p₁ ethBalance usdtBalance riskPct : ℚ)
      (dir : TradeDirection),
      0 < p₀ → 0 < p₁ →
      calculateSwapAmount rlog rsqrt [.fin c] [.fin p₀, .fin p₁]
          (.fin ethBalance) (.fin usdtBalance) (.fin riskPct) dir
        = .ok (jsToFixed6 (.fin ((match dir with
            | TradeDirection.USDT_TO_ETH => usdtBalance
            | TradeDirection.ETH_TO_USDT => ethBalance) * riskPct))) := by
  intro rlog rsqrt c p₀ p₁ eb ub rp dir hp₀ hp₁
  have hdiv : jsDiv (JsNum.fin p₁) (JsNum.fin p₀) = JsNum.fin (p₁ / p₀) := by
    show (if p₀ = 0
        then (if p₁ = 0 then JsNum.nan else if 0 < p₁ then JsNum.posInf else JsNum.negInf)
        else JsNum.fin (p₁ / p₀)) = JsNum.fin (p₁ / p₀)
    rw [if_neg (ne_of_gt hp₀)]
  have hratio : 0 < p₁ / p₀ := div_pos hp₁ hp₀
  have hlog : jsLog rlog (JsNum.fin (p₁ / p₀)) = JsNum.fin (rlog (p₁ / p₀)) := by
    show (if p₁ / p₀ < 0 then JsNum.nan
        else if p₁ / p₀ = 0 then JsNum.negInf else JsNum.fin (rlog (p₁ / p₀)))
      = JsNum.fin (rlog (p₁ / p₀))
    rw [if_neg (not_lt.mpr hratio.le), if_neg (ne_of_gt hratio)]
  have hlr : calculateLogReturns rlog [.fin p₀, .fin p₁] = [.fin (rlog (p₁ / p₀))] := by
    simp [calculateLogReturns, hdiv, hlog, JsNum.isNaN]
  unfold calculateSwapAmount fetchEthPrice
  rw [show ([JsNum.fin c].getLast?) = some (JsNum.fin c) from rfl]
  dsimp only
  rw [hlr, stdDev_singleton, calculateSwapAmountCore_fin]
  have h1 : max (0:ℚ) (1/1000) = 1/1000 := max_eq_right (by norm_num)
  have h2 : min (1:ℚ) ((1/50)/(1/1000)) = 1 := min_eq_left (by norm_num)
  rw [h1, h2, mul_one]

/-- C10 (witness): prices 100 then 110, balance 2000 USDT, riskPct 2%. -/
theorem calculateSwapAmount_two_point_series_witness :
    (0:ℚ) < 100 ∧ (0:ℚ) < 110 ∧
    calculateSwapAmount (fun q => q) (fun q => q) [.fin 100] [.fin 100, .fin 110]
        (.fin 2) (.fin 2000) (.fin (1/50)) TradeDirection.USDT_TO_ETH
      = .ok (jsToFixed6 (.fin (2000 * (1/50)))) :=
  ⟨by norm_num, by norm_num,
    calculateSwapAmount_two_point_series (fun q => q) (fun q => q) 100 100 110 2 2000 (1/50)
      TradeDirection.USDT_TO_ETH (by norm_num) (by norm_num)⟩

/-! ## C9 — the notification sink never throws -/

/-- C9: `sendTelegramNotification` returns normally for every message,
markup, configuration and delivery outcome — missing bot token or chat ID,
an HTTP/network error, and an API rejection are all absorbed internally, so
a notification failure can never fail the swap workflow. -/
theorem sendTelegramNotification_never_throws :
    ∀ (env : TelegramEnv) (message : String) (markup : Option String),
      ∃ o : NotifyOutcome, sendTelegramNotification env message markup = .ok o := by
  intro env message markup
  unfold sendTelegramNotification
  by_cases h : (jsFalsyStr env.botToken || jsFalsyStr env.chatId) = true
  · rw [if_pos h]
    exact ⟨_, rfl⟩
  · rw [if_neg h]
    dsimp only
    cases env.post _ with
    | error e => exact ⟨_, rfl⟩
    | ok response =>
        rcases response with ⟨rok, rdesc⟩
        cases rok
        · exact ⟨_, rfl⟩
        · exact ⟨_, rfl⟩

/-! ## C1 and C3 — orchestrator call ordering -/

/-- C1: given the allowance answered by the aggregation API, the orchestrator
broadcasts at most one approval transaction, and whenever the swap-build
request is reached in the insufficient-allowance case it is preceded by
exactly one approval build, one approval broadcast and one approval
confirmation; with sufficient allowance no approval step of any kind is
issued. -/
theorem performTokenSwap_approval_before_swap :
    ∀ (env : SwapEnv) (fromToken toToken : String) (amountWei : ℕ)
      (walletAddress : String) (allowance : ℕ),
      env.allowanceResult = Except.ok allowance →
      ((allowance < amountWei →
          ((performTokenSwap env fromToken toToken amountWei walletAddress).1.countP
              SwapEvent.isApprovalBroadcast ≤ 1 ∧
            ((performTokenSwap env fromToken toToken amountWei walletAddress).1.any
                SwapEvent.isSwapBuild = true →
              ((preSwapBuild (performTokenSwap env fromToken toToken amountWei walletAddress).1).countP
                  SwapEvent.isApprovalBuild = 1 ∧
                (preSwapBuild (performTokenSwap env fromToken toToken amountWei walletAddress).1).countP
                  SwapEvent.isApprovalBroadcast = 1 ∧
                (preSwapBuild (performTokenSwap env fromToken toToken amountWei walletAddress).1).countP
                  SwapEvent.isApprovalConfirmed = 1)))) ∧
        (amountWei ≤ allowance →
          (performTokenSwap env fromToken toToken amountWei walletAddress).1.countP
            SwapEvent.isApprovalStep = 0)) := by
  intro env fromToken toToken amountWei walletAddress allowance h
  rcases env with ⟨ar, aa, ag, as1, aw, sa, ss, sw⟩
  simp only at h
  subst h
  constructor
  · intro hlt
    simp only [performTokenSwap, checkAllowance, buildApprovalTx, buildSwapTx,
      signAndSendTransaction, if_pos hlt]
    rcases aa with e1 | d1 <;> rcases ag with e2 | g2 <;> rcases as1 with e3 | h3 <;>
      rcases aw with e4 | u4 <;> rcases sa with e5 | d5 <;> rcases ss with e6 | h6 <;>
      rcases sw with e7 | u7 <;>
      simp [preSwapBuild, List.countP_cons, List.countP_nil, List.takeWhile,
        SwapEvent.isApprovalBuild, SwapEvent.isApprovalBroadcast,
        SwapEvent.isApprovalConfirmed, SwapEvent.isSwapBuild, SwapEvent.isApprovalStep,
        SwapEvent.isAllowanceCheck]
  · intro hge
    have hnlt : ¬ allowance < amountWei := not_lt.mpr hge
    simp only [performTokenSwap, checkAllowance, buildSwapTx, signAndSendTransaction,
      if_neg hnlt]
    rcases sa with e5 | d5 <;> rcases ss with e6 | h6 <;> rcases sw with e7 | u7 <;>
      simp [List.countP_cons, List.countP_nil,
        SwapEvent.isApprovalBuild, SwapEvent.isApprovalBroadcast,
        SwapEvent.isApprovalConfirmed, SwapEvent.isApprovalStep]

/-- A fully successful environment with zero current allowance. -/
def swapEnvAllOk : SwapEnv :=
  { allowanceResult := .ok 0,
    approvalApiResult := .ok
      { toAddress := "0xTokenContract", data := "0xapprovedata", value := 0,
        gas := 0, gasPrice := none },
    approvalGasResult := .ok 21000,
    approvalSendResult := .ok "0xApprovalHash",
    approvalWaitResult := .ok (),
    swapApiResult := .ok
      { toAddress := "0xRouter", data := "0xswapdata", value := 0,
        gas := 300000, gasPrice := none },
    swapSendResult := .ok "0xSwapHash",
    swapWaitResult := .ok () }

/-- C1 (witness): allowance 0 against an amount of 10^18 base units — the
spec's own scenario — run through the theorem. -/
theorem performTokenSwap_approval_before_swap_witness :
    swapEnvAllOk.allowanceResult = Except.ok 0 ∧
    ((0 < 1000000000000000000 →
        ((performTokenSwap swapEnvAllOk "0xFromToken" "0xToToken" 1000000000000000000
            "0xWallet").1.countP SwapEvent.isApprovalBroadcast ≤ 1 ∧
          ((performTokenSwap swapEnvAllOk "0xFromToken" "0xToToken" 1000000000000000000
              "0xWallet").1.any SwapEvent.isSwapBuild = true →
            ((preSwapBuild (performTokenSwap swapEnvAllOk "0xFromToken" "0xToToken"
                1000000000000000000 "0xWallet").1).countP SwapEvent.isApprovalBuild = 1 ∧
              (preSwapBuild (performTokenSwap swapEnvAllOk "0xFromToken" "0xToToken"
                1000000000000000000 "0xWallet").1).countP SwapEvent.isApprovalBroadcast = 1 ∧
              (preSwapBuild (performTokenSwap swapEnvAllOk "0xFromToken" "0xToToken"
                1000000000000000000 "0xWallet").1).countP SwapEvent.isApprovalConfirmed = 1)))) ∧
      (1000000000000000000 ≤ 0 →
        (performTokenSwap swapEnvAllOk "0xFromToken" "0xToToken" 1000000000000000000
          "0xWallet").1.countP SwapEvent.isApprovalStep = 0)) :=
  ⟨rfl, performTokenSwap_approval_before_swap swapEnvAllOk "0xFromToken" "0xToToken"
    1000000000000000000 "0xWallet" 0 rfl⟩

/-- C3 (counterexample): calling the orchestrator with the native sentinel
address as `fromToken` still issues the allowance check — the very first
external call is the allowance query for the sentinel, so the claimed skip
does not exist. -/
theorem performTokenSwap_native_still_checks_allowance :
    ((performTokenSwap swapEnvAllOk nativeTokenAddress "0xToToken" 1000 "0xWallet").1.countP
        SwapEvent.isAllowanceCheck = 1) ∧
    ((performTokenSwap swapEnvAllOk nativeTokenAddress "0xToToken" 1000 "0xWallet").1.head? =
        some (.allowanceCheck nativeTokenAddress "0xWallet")) := by
  exact ⟨rfl, rfl⟩

/-- C3 (amended): the allowance check is issued unconditionally — for every
environment and every `fromToken`, including the native sentinel, the first
external call of `performTokenSwap` is the allowance query; no skip and no
"treated as unlimited" path exists in the code. -/
theorem performTokenSwap_always_checks_allowance_first :
    ∀ (env : SwapEnv) (fromToken toToken : String) (amountWei : ℕ) (walletAddress : String),
      (performTokenSwap env fromToken toToken amountWei walletAddress).1.head? =
        some (.allowanceCheck fromToken walletAddress) := by
  intro env fromToken toToken amountWei walletAddress
  rcases env with ⟨ar, aa, ag, as1, aw, sa, ss, sw⟩
  simp only [performTokenSwap, checkAllowance, buildApprovalTx, buildSwapTx,
    signAndSendTransaction]
  rcases ar with e | al
  · rfl
  · rcases aa with e1 | d1 <;> rcases ag with e2 | g2 <;> rcases as1 with e3 | h3 <;>
      rcases aw with e4 | u4 <;> rcases sa with e5 | d5 <;> rcases ss with e6 | h6 <;>
      rcases sw with e7 | u7 <;> dsimp only <;> split <;> rfl

/-! ## Balance-reader lemmas -/

/-- Assigning a fresh key appends it. -/
theorem recordSet_of_not_mem (m : List (String × String)) (k v : String)
    (h : k ∉ m.map Prod.fst) : recordSet m k v = m ++ [(k, v)] := by
  have hany : (m.any (fun p => p.1 = k)) = false := by
    rw [List.any_eq_false]
    intro p hp
    simp only [decide_eq_true_eq]
    intro hpk
    exact h (List.mem_map.mpr ⟨p, hp, hpk⟩)
  unfold recordSet
  rw [hany]
  simp

/-- Every entry of an assignment result comes from the old map or is the
assigned pair. -/
theorem recordSet_mem (m : List (String × String)) (k v : String) (p : String × String)
    (h : p ∈ recordSet m k v) : p ∈ m ∨ p = (k, v) := by
  unfold recordSet at h
  by_cases hc : (m.any (fun q => q.1 = k)) = true
  · rw [if_pos hc] at h
    rcases List.mem_map.mp h with ⟨q, hq, hfq⟩
    by_cases hqk : q.1 = k
    · right
      rw [← hfq, if_pos hqk]
    · left
      rw [← hfq, if_neg hqk]
      exact hq
  · rw [if_neg hc] at h
    rcases List.mem_append.mp h with h1 | h1
    · exact Or.inl h1
    · right
      simpa using h1

/-- Overwriting key `k` does not change lookups of other keys. -/
theorem lookup_overwrite_ne (m : List (String × String)) (k v k2 : String)
    (h : k2 ≠ k) :
    (m.map (fun p => if p.1 = k then (k, v) else p)).lookup k2 = m.lookup k2 := by
  induction m with
  | nil => rfl
  | cons a rest ih =>
    rcases a with ⟨a1, a2⟩
    by_cases hak : a1 = k
    · subst hak
      have hif : (fun p : String × String => if p.1 = a1 then (a1, v) else p) (a1, a2)
          = (a1, v) := if_pos rfl
      have hbeq : (k2 == a1) = false := beq_eq_false_iff_ne.mpr h
      simp only [List.map_cons, hif]
      simp [List.lookup, hbeq, ih]
    · simp only [List.map_cons, if_neg hak]
      by_cases hka : (k2 == a1) = true
      · simp [List.lookup, hka]
      · simp only [Bool.not_eq_true] at hka
        simp [List.lookup, hka, ih]

/-- Appending a binding for key `k` does not change lookups of other keys. -/
theorem lookup_append_single_ne (m : List (String × String)) (k v k2 : String)
    (h : k2 ≠ k) : (m ++ [(k, v)]).lookup k2 = m.lookup k2 := by
  induction m with
  | nil => simp [List.lookup, beq_eq_false_iff_ne.mpr h]
  | cons a rest ih =>
    by_cases hka : (k2 == a.1) = true
    · simp [List.lookup, hka]
    · simp only [Bool.not_eq_true] at hka
      simp [List.lookup, hka, ih]

/-- `balances[k] = v` does not change lookups of other keys. -/
theorem recordSet_lookup_ne (m : List (String × String)) (k v k2 : String)
    (h : k2 ≠ k) : (recordSet m k v).lookup k2 = m.lookup k2 := by
  unfold recordSet
  split
  · exact lookup_overwrite_ne m k v k2 h
  · exact lookup_append_single_ne m k v k2 h

/-- Skipping branch of the token loop. -/
theorem tokenBalanceLoop_cons_native (env : BalanceEnv) (q : String × String)
    (rest init : List (String × String)) (hq : q.1 = nativeSymbol) :
    tokenBalanceLoop env (q :: rest) init = tokenBalanceLoop env rest init := by
  simp [tokenBalanceLoop, hq]

/-- Recording branch of the token loop. -/
theorem tokenBalanceLoop_cons_token (env : BalanceEnv) (q : String × String)
    (rest init : List (String × String)) (hq : q.1 ≠ nativeSymbol) :
    tokenBalanceLoop env (q :: rest) init
      = tokenBalanceLoop env rest (recordSet init q.1 (tokenEntryValue env q.2)) := by
  simp [tokenBalanceLoop, hq]

/-- The token loop never touches the native entry. -/
theorem tokenBalanceLoop_lookup_native (env : BalanceEnv) :
    ∀ (registry init : List (String × String)),
      (tokenBalanceLoop env registry init).lookup nativeSymbol
        = init.lookup nativeSymbol := by
  intro registry
  induction registry with
  | nil => intro init; rfl
  | cons q rest ih =>
    intro init
    by_cases hq : q.1 = nativeSymbol
    · rw [tokenBalanceLoop_cons_native env q rest init hq]
      exact ih init
    · rw [tokenBalanceLoop_cons_token env q rest init hq, ih]
      exact recordSet_lookup_ne init q.1 _ nativeSymbol (Ne.symm hq)

/-- Key shape of the token loop: on a duplicate-free registry it appends the
non-native symbols, in order, after the initial keys. -/
theorem tokenBalanceLoop_keys (env : BalanceEnv) :
    ∀ (registry init : List (String × String)),
      (registry.map Prod.fst).Nodup →
      (∀ p ∈ registry, p.1 ≠ nativeSymbol → p.1 ∉ init.map Prod.fst) →
      (tokenBalanceLoop env registry init).map Prod.fst =
        init.map Prod.fst ++ (registry.map Prod.fst).filter (fun s => s ≠ nativeSymbol) := by
  intro registry
  induction registry with
  | nil =>
    intro init _ _
    simp [tokenBalanceLoop]
  | cons p rest ih =>
    intro init hnd hdisj
    simp only [List.map_cons, List.nodup_cons] at hnd
    by_cases hp : p.1 = nativeSymbol
    · rw [tokenBalanceLoop_cons_native env p rest init hp,
        ih init hnd.2 (fun q hq hqn => hdisj q (List.mem_cons_of_mem _ hq) hqn)]
      simp [List.filter_cons, hp]
    · have hpnotin : p.1 ∉ init.map Prod.fst := hdisj p (List.mem_cons_self _ _) hp
      rw [tokenBalanceLoop_cons_token env p rest init hp,
        recordSet_of_not_mem init p.1 _ hpnotin]
      rw [ih (init ++ [(p.1, tokenEntryValue env p.2)]) hnd.2 ?_]
      · simp [List.filter_cons, hp, List.append_assoc]
      · intro q hq hqn
        simp only [List.map_append, List.mem_append]
        rintro (hin | hin)
        · exact hdisj q (List.mem_cons_of_mem _ hq) hqn hin
        · have hq1 : q.1 = p.1 := by simpa using hin
          exact hnd.1 (hq1 ▸ List.mem_map.mpr ⟨q, hq, rfl⟩)

/-- Every entry produced by the token loop is an initial entry or the
recorded value of some registry entry. -/
theorem tokenBalanceLoop_mem (env : BalanceEnv) :
    ∀ (registry init : List (String × String)) (p : String × String),
      p ∈ tokenBalanceLoop env registry init →
      p ∈ init ∨ ∃ q ∈ registry, p = (q.1, tokenEntryValue env q.2) := by
  intro registry
  induction registry with
  | nil =>
    intro init p hp
    exact Or.inl (by simpa [tokenBalanceLoop] using hp)
  | cons q rest ih =>
    intro init p hp
    by_cases hq : q.1 = nativeSymbol
    · rw [tokenBalanceLoop_cons_native env q rest init hq] at hp
      rcases ih init p hp with h | ⟨r, hr, hpr⟩
      · exact Or.inl h
      · exact Or.inr ⟨r, List.mem_cons_of_mem _ hr, hpr⟩
    · rw [tokenBalanceLoop_cons_token env q rest init hq] at hp
      rcases ih _ p hp with h | ⟨r, hr, hpr⟩
      · rcases recordSet_mem _ _ _ _ h with h1 | h1
        · exact Or.inl h1
        · exact Or.inr ⟨q, List.mem_cons_self _ _, h1⟩
      · exact Or.inr ⟨r, List.mem_cons_of_mem _ hr, hpr⟩

/-! ## C4 — which balance reader is fatal on a native-read failure -/

/-- An environment whose native-balance RPC fails while every token read
succeeds. -/
def balanceEnvNativeDown : BalanceEnv :=
  { nativeResult := .error "could not detect network",
    tokenResult := fun _ => .ok (1000000, 6),
    formatEther := fun _ => "2.0",
    formatUnits := fun _ _ => "1.0" }

/-- C4 (counterexample): the current `getBalances`
(src/services/getBalances.ts) does not throw when the native read fails — it
returns a normal snapshot carrying the `"Error"` marker for ETH, so "throws
if and only if the native-asset balance read fails" is false for it. -/
theorem getBalances_native_failure_not_fatal :
    getBalances balanceEnvNativeDown [("ETH", "0xEee"), ("USDT", "0xdAC")] "0xWallet" 1
      = .ok { wallet := "0xWallet", chainId := 1,
              balances := [("ETH", "Error"), ("USDT", "1.0")] } := by
  rfl

/-- C4 (amended): the guarded reader (src/services/getBalances.ts) never
throws — a native-read failure becomes the `"ETH" ↦ "Error"` marker; only
the legacy reader (src/services/getBalance.ts) propagates the native
failure, and it fails exactly when the native read fails.  Per-token
failures are never fatal in either (both equalities hold for every token
oracle). -/
theorem getBalances_native_failure_semantics :
    ∀ (env : BalanceEnv) (registry : List (String × String))
      (walletAddress : String) (chainId : ℕ) (msg : String),
      exceptOk (getBalances env registry walletAddress chainId) = true ∧
      exceptOk (getBalance env registry walletAddress chainId) = nativeOk env.nativeResult ∧
      (getBalances { env with nativeResult := .error msg } registry walletAddress
          chainId).toOption.map (fun snap => snap.balances.lookup nativeSymbol)
        = some (some "Error") := by
  intro env registry w c msg
  refine ⟨rfl, ?_, ?_⟩
  · rcases h : env.nativeResult with e | b <;> simp [getBalance, h, exceptOk, nativeOk]
  · have h1 : (tokenBalanceLoop { env with nativeResult := .error msg } registry
        [(nativeSymbol, "Error")]).lookup nativeSymbol
        = ([(nativeSymbol, "Error")] : List (String × String)).lookup nativeSymbol :=
      tokenBalanceLoop_lookup_native _ registry _
    simp [getBalances, Except.toOption, nativeEntryValue, recordSet, h1, List.lookup]

/-! ## C7 — exactly one entry per registered asset -/

/-- C7: for every environment (any subset of per-asset failures) and every
duplicate-free registry containing the native symbol, the snapshot holds
exactly the registered symbols — none omitted, none duplicated — and each
entry is the native value-or-Error or some registered token's
value-or-Error. -/
theorem getBalances_one_entry_per_registered_asset :
    ∀ (env : BalanceEnv) (registry : List (String × String))
      (walletAddress : String) (chainId : ℕ),
      (registry.map Prod.fst).Nodup →
      nativeSymbol ∈ registry.map Prod.fst →
      ∃ snap, getBalances env registry walletAddress chainId = .ok snap ∧
        (∀ s : String, s ∈ snap.balances.map Prod.fst ↔ s ∈ registry.map Prod.fst) ∧
        (snap.balances.map Prod.fst).Nodup ∧
        ∀ p ∈ snap.balances, p = (nativeSymbol, nativeEntryValue env) ∨
          ∃ q ∈ registry, p = (q.1, tokenEntryValue env q.2) := by
  intro env registry w c hnd hmem
  have hinit : (recordSet [] nativeSymbol (nativeEntryValue env)).map Prod.fst
      = [nativeSymbol] := rfl
  have hkeys : (tokenBalanceLoop env registry
        (recordSet [] nativeSymbol (nativeEntryValue env))).map Prod.fst
      = nativeSymbol :: (registry.map Prod.fst).filter (fun s => s ≠ nativeSymbol) := by
    rw [tokenBalanceLoop_keys env registry _ hnd ?_, hinit]
    · rfl
    · intro q hq hqn
      rw [hinit]
      simp [hqn]
  refine ⟨_, rfl, ?_, ?_, ?_⟩
  · intro s
    rw [hkeys]
    simp only [List.mem_cons, List.mem_filter, decide_eq_true_eq]
    constructor
    · rintro (rfl | ⟨hs, _⟩)
      · exact hmem
      · exact hs
    · intro hs
      by_cases hsn : s = nativeSymbol
      · exact Or.inl hsn
      · exact Or.inr ⟨hs, hsn⟩
  · rw [hkeys, List.nodup_cons]
    refine ⟨?_, hnd.filter _⟩
    intro hcontra
    rcases List.mem_filter.mp hcontra with ⟨_, habs⟩
    simp at habs
  · intro p hp
    rcases tokenBalanceLoop_mem env registry _ p hp with hin | ⟨q, hq, hpq⟩
    · left
      simpa [recordSet] using hin
    · exact Or.inr ⟨q, hq, hpq⟩

/-- C7 (witness): a three-asset registry with the native read failing — the
snapshot still carries exactly one entry per registered symbol. -/
theorem getBalances_one_entry_per_registered_asset_witness :
    ∃ snap, getBalances balanceEnvNativeDown
        [("ETH", "0xEee"), ("USDT", "0xdAC"), ("DAI", "0x6B1")] "0xWallet" 1 = .ok snap ∧
      (∀ s : String, s ∈ snap.balances.map Prod.fst ↔
        s ∈ ([("ETH", "0xEee"), ("USDT", "0xdAC"), ("DAI", "0x6B1")] :
              List (String × String)).map Prod.fst) ∧
      (snap.balances.map Prod.fst).Nodup ∧
      ∀ p ∈ snap.balances, p = (nativeSymbol, nativeEntryValue balanceEnvNativeDown) ∨
        ∃ q ∈ ([("ETH", "0xEee"), ("USDT", "0xdAC"), ("DAI", "0x6B1")] :
              List (String × String)), p = (q.1, tokenEntryValue balanceEnvNativeDown q.2) :=
  getBalances_one_entry_per_registered_asset balanceEnvNativeDown
    [("ETH", "0xEee"), ("USDT", "0xdAC"), ("DAI", "0x6B1")] "0xWallet" 1
    (by decide) (by decide)
